import Mathlib

/-!
Verification of the harvesting-and-aggregation pipeline in `src/app.py`.

The file shallowly embeds the five core functions of the program —
`tokenize_text`, the `parse_ts` timestamp normalizer and the row-collection
loop of `crawl_dc_minor`, `build_daily_word_stats`, `get_range_word_stats`
and `get_day_word_stats` — as executable Lean functions, and proves the
specified properties about them.

Modelling conventions:
* text is `List Char` (Python `str`, one element per code point); general
  strings that are only compared for equality or order stay `String`;
* pandas DataFrames are lists of row structures; `groupby` is modelled by
  deduplicated keys plus `filter` (group-key order is irrelevant to every
  property proved here);
* float frequencies are modelled as exact rationals `ℚ`;
* the HTTP/HTML boundary of the crawler is an oracle `Site` giving, per
  listing page, the parsed candidate rows, and per detail URL, the fetch
  outcome (`Except` = raised exception, `some body` = content found,
  `none` = `div.write_div` absent);
* the in-place column assignment `df["date"] = df["date"].astype(str)` that
  the query functions perform on their `df_daily.copy()` is modelled with an
  explicit store of tables, so that the absence of mutation of the caller's
  table is a real statement and not an artifact of the embedding.
-/

namespace App

/-! ## Tokenizer (src/app.py lines 16-60) -/

/-- Membership in the character class of `TOKEN_PATTERN`,
`[0-9A-Za-z가-힣ㄱ-ㅎㅏ-ㅣ]`. -/
def isTokenChar (c : Char) : Bool :=
  ('0' ≤ c && c ≤ '9') || ('A' ≤ c && c ≤ 'Z') || ('a' ≤ c && c ≤ 'z') ||
  ('가' ≤ c && c ≤ '힣') || ('ㄱ' ≤ c && c ≤ 'ㅎ') || ('ㅏ' ≤ c && c ≤ 'ㅣ')

/-- Maximal runs of `TOKEN_PATTERN` characters with structural fuel (the
fuel only needs to dominate the list length; it makes the recursion — which
consumes at least one character per step — structural, so that the function
reduces definitionally). -/
def splitRunsFuel : Nat → List Char → List (List Char)
  | 0, _ => []
  | _, [] => []
  | fuel + 1, c :: cs =>
    if isTokenChar c then
      (c :: cs.takeWhile isTokenChar) :: splitRunsFuel fuel (cs.dropWhile isTokenChar)
    else
      splitRunsFuel fuel cs

/-- Maximal runs of `TOKEN_PATTERN` characters, in order: the sequence of
matches produced by `TOKEN_PATTERN.finditer(text)`. -/
def splitRuns (l : List Char) : List (List Char) :=
  splitRunsFuel l.length l

/-- Membership in `[A-Za-z]`; a token fully matches `re.fullmatch(r"[A-Za-z]+", ·)`
iff all of its characters satisfy this (finditer matches are never empty). -/
def isAsciiAlpha (c : Char) : Bool :=
  ('A' ≤ c && c ≤ 'Z') || ('a' ≤ c && c ≤ 'z')

/-- Embedding of `tokenize_text(text, stopwords, min_len)`: for each regex
match, lowercase it when it is pure ASCII letters, then drop it when shorter
than `min_len` or contained in `stopwords`.  The Python `stopwords or set()`
default is the empty list. -/
def tokenize_text (text : List Char) (stopwords : List (List Char)) (min_len : Nat) :
    List (List Char) :=
  (splitRuns text).filterMap (fun tok0 =>
    let tok := if tok0.all isAsciiAlpha then tok0.map Char.toLower else tok0
    if tok.length < min_len then none
    else if tok ∈ stopwords then none
    else some tok)

/-- The module-level `DEFAULT_STOPWORDS` set. -/
def DEFAULT_STOPWORDS : List (List Char) :=
  ["그냥", "근데", "그리고", "또", "좀", "이거", "저거", "거의",
   "지금", "오늘", "내일", "어제", "그럼", "제발",
   "the", "and", "or", "but", "a", "an", "to", "of"].map String.toList

/-! ## Timestamp normalization: `parse_ts` (src/app.py lines 158-166)

`parse_ts` strips the raw string and feeds it to
`datetime.strptime` with the formats `"%Y.%m.%d %H:%M"`, `"%Y-%m-%d %H:%M"`,
`"%Y.%m.%d"`, `"%Y-%m-%d"` in that order, returning the first success and
`NaT` (here `none`) when all fail.  CPython's `_strptime` compiles each
format to a regular expression — `%Y` is exactly four digits, `%m` is
`1[0-2]|0[1-9]|[1-9]`, `%d` is `3[01]|[12]\d|0[1-9]|[1-9]`, `%H` is
`2[0-3]|[0-1]\d|\d`, `%M` is `[0-5]\d|\d`, a space is `\s+` — anchored at the
start, requires the whole string to be consumed, and finally validates the
field combination through the `datetime` constructor (calendar day range).
Because every two-digit alternative of a field is followed in these formats
by a non-digit (separator, whitespace, colon or end of input), committing to
a valid two-digit match before trying the one-digit alternative is exactly
the regex backtracking behaviour. -/

/-- Decimal value of a digit character. -/
def digitVal (c : Char) : Nat := c.toNat - '0'.toNat

/-- Exactly four digits (`%Y`). -/
def parseYear4 : List Char → Option (Nat × List Char)
  | a :: b :: c :: d :: rest =>
    if a.isDigit && b.isDigit && c.isDigit && d.isDigit then
      some (1000 * digitVal a + 100 * digitVal b + 10 * digitVal c + digitVal d, rest)
    else none
  | _ => none

/-- A strptime numeric field: a valid two-digit match, else a valid
one-digit match. -/
def parseField (valid2 valid1 : Nat → Bool) : List Char → Option (Nat × List Char)
  | a :: b :: rest =>
    if a.isDigit && b.isDigit && valid2 (10 * digitVal a + digitVal b) then
      some (10 * digitVal a + digitVal b, rest)
    else if a.isDigit && valid1 (digitVal a) then
      some (digitVal a, b :: rest)
    else none
  | [a] => if a.isDigit && valid1 (digitVal a) then some (digitVal a, []) else none
  | [] => none

/-- One expected literal character of the format. -/
def expectChar (c : Char) : List Char → Option (List Char)
  | x :: rest => if x = c then some rest else none
  | [] => none

/-- Whitespace in the sense of `\s` / `str.strip` (ASCII part). -/
def isSpaceChar (c : Char) : Bool :=
  c = ' ' || c = '\t' || c = '\n' || c = '\r' || c = '\x0b' || c = '\x0c'

/-- A format-string space: `\s+`, one or more whitespace characters. -/
def ws1 : List Char → Option (List Char)
  | x :: rest => if isSpaceChar x then some (rest.dropWhile isSpaceChar) else none
  | [] => none

/-- Gregorian leap-year rule used by `datetime`. -/
def isLeapYear (y : Nat) : Bool :=
  y % 4 == 0 && (y % 100 != 0 || y % 400 == 0)

/-- Number of days of month `m` of year `y`. -/
def daysInMonth (y m : Nat) : Nat :=
  if m = 2 then (if isLeapYear y then 29 else 28)
  else if m = 4 ∨ m = 6 ∨ m = 9 ∨ m = 11 then 30 else 31

/-- A parsed `datetime.datetime` value (fields relevant to this program). -/
structure DT where
  year : Nat
  month : Nat
  day : Nat
  hour : Nat
  minute : Nat
deriving DecidableEq, Repr

/-- Final validation done by the `datetime` constructor: the year is
positive and the day exists in the month. -/
def mkDatetime (y mo d h mi : Nat) : Option DT :=
  if 1 ≤ y ∧ d ≤ daysInMonth y mo then some ⟨y, mo, d, h, mi⟩ else none

/-- strptime with format `%Y<sep>%m<sep>%d` followed, when `withTime`, by
`\s+%H:%M`; the whole input must be consumed. -/
def strpDate (sep : Char) (withTime : Bool) (l : List Char) : Option DT := do
  let (y, l) ← parseYear4 l
  let l ← expectChar sep l
  let (mo, l) ← parseField (fun v => decide (1 ≤ v ∧ v ≤ 12)) (fun v => decide (1 ≤ v)) l
  let l ← expectChar sep l
  let (d, l) ← parseField (fun v => decide (1 ≤ v ∧ v ≤ 31)) (fun v => decide (1 ≤ v)) l
  if withTime then
    let l ← ws1 l
    let (h, l) ← parseField (fun v => decide (v ≤ 23)) (fun _ => true) l
    let l ← expectChar ':' l
    let (mi, l) ← parseField (fun v => decide (v ≤ 59)) (fun _ => true) l
    if l.isEmpty then mkDatetime y mo d h mi else none
  else
    if l.isEmpty then mkDatetime y mo d 0 0 else none

/-- Python `str.strip()` (ASCII whitespace). -/
def stripChars (l : List Char) : List Char :=
  ((l.dropWhile isSpaceChar).reverse.dropWhile isSpaceChar).reverse

/-- Embedding of the local `parse_ts` of `crawl_dc_minor`: strip, then try
the four fixed formats in order, returning the first success, else `none`
(pandas `NaT`). -/
def parse_ts (x : String) : Option DT :=
  let l := stripChars x.toList
  (strpDate '.' true l).orElse (fun _ =>
    (strpDate '-' true l).orElse (fun _ =>
      (strpDate '.' false l).orElse (fun _ =>
        strpDate '-' false l)))

/-! ## Harvester: the row-collection loop of `crawl_dc_minor`
(src/app.py lines 67-171)

The network and the BeautifulSoup selectors are abstracted by an oracle:
`Site.listing page` is the outcome of fetching and selecting the candidate
`tr` rows of one listing page (`Except.error` = the `requests.get` /
`raise_for_status` raised), and `Site.detail url` is the outcome of the
detail-page request (`Except.error` = raised, `Option` = whether
`div.write_div` was found). -/

/-- One candidate listing row: the title anchor (`a.ub-word`, `none` when
absent) as (text, href), and the date cell (`td.gall_date`, `none` when
absent) as (`title` attribute when present, visible text). -/
structure TrRow where
  anchor : Option (String × String)
  dateTd : Option (Option String × String)
deriving DecidableEq, Repr

/-- The crawler's view of the remote site. -/
structure Site where
  listing : Nat → Except String (List TrRow)
  detail : String → Except String (Option String)

/-- Python `str.startswith`, character by character (executable, unlike
`String.startsWith`, whose byte-level loops do not reduce in the kernel). -/
def strStarts : List Char → List Char → Bool
  | [], _ => true
  | _ :: _, [] => false
  | a :: as, b :: bs => a = b && strStarts as bs

/-- Link normalization: `//…` gets `https:`, `/…` gets the host. -/
def normHref (href : String) : String :=
  if strStarts ("//".toList) href.toList then "https:" ++ href
  else if strStarts ("/".toList) href.toList then "https://gall.dcinside.com" ++ href
  else href

/-- Raw timestamp of a row: `date_td.get("title") or date_td.get_text(...)`
(Python `or`: an absent or empty attribute falls back to the text), and `""`
when the cell is absent. -/
def rawDateOf (tr : TrRow) : String :=
  match tr.dateTd with
  | none => ""
  | some (attr, txt) =>
    match attr with
    | some a => if a = "" then txt else a
    | none => txt

/-- One entry of the `rows` list accumulated by the crawl loop. -/
structure RawRow where
  timestamp_raw : String
  title : String
  content : String
  url : String
  page : Nat
deriving DecidableEq, Repr

/-- The two `st.warning` side-channel messages of the loop. -/
inductive Warning where
  | listFail (page : Nat) (err : String)
  | detailFail (url : String) (err : String)
deriving DecidableEq, Repr

/-- Processing of one `tr`: skip it when the title anchor is missing or its
href empty; otherwise fetch the detail page, an exception leaving the body
empty (with a warning), an absent `div.write_div` likewise (without one).
Exactly the body of the inner `for tr in trs` loop. -/
def processTr (detail : String → Except String (Option String)) (page : Nat)
    (tr : TrRow) : List RawRow × List Warning :=
  match tr.anchor with
  | none => ([], [])
  | some (title, href) =>
    if href = "" then ([], [])
    else
      let url := normHref href
      match detail url with
      | .error e => ([⟨rawDateOf tr, title, "", url, page⟩], [Warning.detailFail url e])
      | .ok none => ([⟨rawDateOf tr, title, "", url, page⟩], [])
      | .ok (some body) => ([⟨rawDateOf tr, title, body, url, page⟩], [])

/-- One iteration of the page loop: a failed listing fetch records one
warning and contributes no rows (`continue`); a successful one processes its
rows in order. -/
def crawlPage (site : Site) (page : Nat) : List RawRow × List Warning :=
  match site.listing page with
  | .error e => ([], [Warning.listFail page e])
  | .ok trs =>
    (((trs.map (processTr site.detail page)).map Prod.fst).flatten,
     ((trs.map (processTr site.detail page)).map Prod.snd).flatten)

/-- A row of the returned DataFrame (columns
`timestamp, title, content, url, page` after `dropna`). -/
structure ParsedRow where
  timestamp : DT
  title : String
  content : String
  url : String
  page : Nat
deriving DecidableEq, Repr

/-- The timestamp stage: `df["timestamp"] = df["timestamp_raw"].apply(parse_ts)`
followed by `df.dropna(subset=["timestamp"])` and the column selection. -/
def applyTimestamps (rows : List RawRow) : List ParsedRow :=
  rows.filterMap (fun r =>
    (parse_ts r.timestamp_raw).map (fun t => ⟨t, r.title, r.content, r.url, r.page⟩))

/-- Embedding of `crawl_dc_minor`: iterate pages `start_page .. end_page`
(inclusive; `range(start_page, end_page + 1)`), concatenating per-page rows
and warnings, then normalize timestamps and drop unparsable rows. -/
def crawl_dc_minor (site : Site) (start_page end_page : Nat) :
    List ParsedRow × List Warning :=
  let pages := List.range' start_page (end_page + 1 - start_page)
  (applyTimestamps ((pages.map (fun p => (crawlPage site p).fst)).flatten),
   (pages.map (fun p => (crawlPage site p).snd)).flatten)

/-! ## Aggregator: `build_daily_word_stats` (src/app.py lines 178-240) -/

/-- An input post as seen by the aggregator: the `title` and `content`
columns, and the already-normalized calendar date
(`pd.to_datetime(df["timestamp"]).dt.date`, rendered as a string). -/
structure PostRow where
  title : List Char
  content : List Char
  date : String
deriving DecidableEq, Repr

/-- A row of the `(date, word)` statistics table. -/
structure StatRow where
  date : String
  word : List Char
  count : Nat
  freq : ℚ
  total_words : Nat
  total_posts : Nat
deriving DecidableEq, Repr

/-- The text tokenized per post: `title + " " + content`. -/
def postText (p : PostRow) : List Char := p.title ++ ' ' :: p.content

/-- The token list of one post (the `tokens` column). -/
def postTokens (stopwords : List (List Char)) (min_len : Nat) (p : PostRow) :
    List (List Char) :=
  tokenize_text (postText p) stopwords min_len

/-- The group of one date: `df.groupby("date")`. -/
def dateGrp (posts : List PostRow) (d : String) : List PostRow :=
  posts.filter (fun p => p.date = d)

/-- All tokens of one date, post by post: the exploded `tokens` column after
`dropna` (a post with an empty token list contributes nothing). -/
def dateTokens (posts : List PostRow) (stopwords : List (List Char)) (min_len : Nat)
    (d : String) : List (List Char) :=
  ((dateGrp posts d).map (postTokens stopwords min_len)).flatten

/-- The `total_words` of one date: `grp["token_count"].sum()`. -/
def dateTotalWords (posts : List PostRow) (stopwords : List (List Char)) (min_len : Nat)
    (d : String) : Nat :=
  (((dateGrp posts d).map (postTokens stopwords min_len)).map List.length).sum

/-- The statistics rows of one date: skipped entirely when the exploded
token column is empty, else one row per distinct token with its occurrence
count, the day totals and the derived frequency. -/
def dateBlock (posts : List PostRow) (stopwords : List (List Char)) (min_len : Nat)
    (d : String) : List StatRow :=
  let total_posts := (dateGrp posts d).length
  let total_words := dateTotalWords posts stopwords min_len d
  let allTokens := dateTokens posts stopwords min_len d
  if allTokens.isEmpty then []
  else
    allTokens.dedup.map (fun w =>
      { date := d, word := w, count := allTokens.count w,
        freq := if 0 < total_words then (allTokens.count w : ℚ) / (total_words : ℚ) else 0,
        total_words := total_words, total_posts := total_posts })

/-- Python `stopwords or DEFAULT_STOPWORDS`: `None` and the empty set both
fall back to the default. -/
def resolveStopwords (stopwords : Option (List (List Char))) : List (List Char) :=
  match stopwords with
  | some s => if s.isEmpty then DEFAULT_STOPWORDS else s
  | none => DEFAULT_STOPWORDS

/-- Embedding of `build_daily_word_stats`: per-date blocks concatenated over
the distinct dates of the input (group-key order irrelevant to every
property proved below). -/
def build_daily_word_stats (posts : List PostRow) (stopwords : Option (List (List Char)))
    (min_len : Nat) : List StatRow :=
  let sw := resolveStopwords stopwords
  (((posts.map (fun p => p.date)).dedup).map (dateBlock posts sw min_len)).flatten

/-! ## Query engine (src/app.py lines 247-333) -/

/-- Python string `<=`: code-point lexicographic order (used on the
stringified `date` column). -/
def lexLe : List Char → List Char → Bool
  | [], _ => true
  | _ :: _, [] => false
  | x :: xs, y :: ys => x < y || (x = y && lexLe xs ys)

/-- String comparison `a <= b` as Python performs it on the date column. -/
def strLe (a b : String) : Bool := lexLe a.toList b.toList

/-- A row of the grouped range-query result. -/
structure RangeRow where
  word : List Char
  sum_count : Nat
  days_appeared : Nat
  avg_freq : ℚ
  max_freq : ℚ
deriving DecidableEq, Repr

/-- The date-range mask: `(df["date"] >= start_date) & (df["date"] <= end_date)`. -/
def rangeSub (df : List StatRow) (start_date end_date : String) : List StatRow :=
  df.filter (fun r => strLe start_date r.date && strLe r.date end_date)

/-- Maximum of a list of rationals (`0` never reached on the nonempty groups
built below). -/
def listMaxQ : List ℚ → ℚ
  | [] => 0
  | x :: xs => xs.foldl max x

/-- The aggregation row of one word group:
`sum_count`, `days_appeared` (`nunique`), `avg_freq` (`mean`), `max_freq`. -/
def mkRangeRow (sub : List StatRow) (w : List Char) : RangeRow :=
  let rows := sub.filter (fun r => r.word = w)
  { word := w,
    sum_count := (rows.map (fun r => r.count)).sum,
    days_appeared := ((rows.map (fun r => r.date)).dedup).length,
    avg_freq := ((rows.map (fun r => r.freq)).sum) / (rows.length : ℚ),
    max_freq := listMaxQ (rows.map (fun r => r.freq)) }

/-- `sub.groupby("word").agg(...)` followed by the
`days_appeared >= min_days` filter. -/
def rangeGrouped (df : List StatRow) (start_date end_date : String) (min_days : Nat) :
    List RangeRow :=
  let sub := rangeSub df start_date end_date
  (((sub.map (fun r => r.word)).dedup).map (mkRangeRow sub)).filter
    (fun g => decide (min_days ≤ g.days_appeared))

/-- Insertion (descending by `f`) used to model `sort_values(ascending=False)`;
the sort key order is all the source fixes (tie order is unspecified there:
numpy quicksort). -/
def insertDescBy {α : Type} (f : α → ℚ) (a : α) : List α → List α
  | [] => [a]
  | b :: bs => if f b ≤ f a then a :: b :: bs else b :: insertDescBy f a bs

/-- Insertion sort, descending by `f`. -/
def sortDescBy {α : Type} (f : α → ℚ) : List α → List α
  | [] => []
  | a :: as => insertDescBy f a (sortDescBy f as)

/-- Python `if top_n and top_n > 0: … .head(top_n)`: keep the first `top_n`
rows when `top_n` is positive, everything otherwise. -/
def truncateTopN {α : Type} (top_n : Nat) (l : List α) : List α :=
  if 0 < top_n then l.take top_n else l

/-- Embedding of `get_range_word_stats`.  `Except.error` models the
`raise ValueError(...)`; note both empty-data early returns precede the
`sort_by` dispatch, exactly as in the source. -/
def get_range_word_stats (df : List StatRow) (start_date end_date : String)
    (min_days top_n : Nat) (sort_by : String) : Except String (List RangeRow) :=
  let sub := rangeSub df start_date end_date
  if sub.isEmpty then .ok [] else
  let grouped := rangeGrouped df start_date end_date min_days
  if grouped.isEmpty then .ok grouped else
  if sort_by = "sum_count" then
    .ok (truncateTopN top_n (sortDescBy (fun g => (g.sum_count : ℚ)) grouped))
  else if sort_by = "avg_freq" then
    .ok (truncateTopN top_n (sortDescBy (fun g => g.avg_freq) grouped))
  else if sort_by = "max_freq" then
    .ok (truncateTopN top_n (sortDescBy (fun g => g.max_freq) grouped))
  else .error ("invalid sort_by: " ++ sort_by)

/-- The exact-date selection `df[df["date"] == target_date]`. -/
def daySub (df : List StatRow) (target_date : String) : List StatRow :=
  df.filter (fun r => r.date = target_date)

/-- The day selection after the `count >= min_count` filter. -/
def dayFiltered (df : List StatRow) (target_date : String) (min_count : Nat) :
    List StatRow :=
  (daySub df target_date).filter (fun r => decide (min_count ≤ r.count))

/-- Embedding of `get_day_word_stats`; same conventions as the range query. -/
def get_day_word_stats (df : List StatRow) (target_date : String)
    (min_count top_n : Nat) (sort_by : String) : Except String (List StatRow) :=
  let sub0 := daySub df target_date
  if sub0.isEmpty then .ok [] else
  let sub := dayFiltered df target_date min_count
  if sub.isEmpty then .ok sub else
  if sort_by = "count" then
    .ok (truncateTopN top_n (sortDescBy (fun r => (r.count : ℚ)) sub))
  else if sort_by = "freq" then
    .ok (truncateTopN top_n (sortDescBy (fun r => r.freq) sub))
  else .error ("invalid sort_by: " ++ sort_by)

/-! ## Store-passing versions of the two queries

Both queries start with `df = df_daily.copy()` and then assign the `date`
column of `df` in place (`df["date"] = df["date"].astype(str)`; the identity
at the value level here, since dates are already modelled stringified).  To
state that the caller's table is never mutated we thread an explicit store
of tables: `copy` allocates a fresh cell, the column assignment writes to
the cell it was performed on, and the rest of the computation only reads. -/

/-- A store of DataFrames; a table reference is an index. -/
abbrev Store := List (List StatRow)

/-- `get_range_word_stats` with the copy and the in-place column write made
explicit against the store. -/
def rangeHeap (σ : Store) (dfRef : Nat) (start_date end_date : String)
    (min_days top_n : Nat) (sort_by : String) :
    Store × Except String (List RangeRow) :=
  let σ1 := σ ++ [σ.getD dfRef []]
  let copyRef := σ.length
  let σ2 := σ1.set copyRef ((σ1.getD copyRef []).map (fun r => { r with date := r.date }))
  (σ2, get_range_word_stats (σ2.getD copyRef []) start_date end_date min_days top_n sort_by)

/-- `get_day_word_stats` with the copy and the in-place column write made
explicit against the store. -/
def dayHeap (σ : Store) (dfRef : Nat) (target_date : String)
    (min_count top_n : Nat) (sort_by : String) :
    Store × Except String (List StatRow) :=
  let σ1 := σ ++ [σ.getD dfRef []]
  let copyRef := σ.length
  let σ2 := σ1.set copyRef ((σ1.getD copyRef []).map (fun r => { r with date := r.date }))
  (σ2, get_day_word_stats (σ2.getD copyRef []) target_date min_count top_n sort_by)

/-! ## Predicates used by the statements -/

/-- Sortedness, descending by the key `f` (ties in either order, as
`sort_values`'s default unstable quicksort leaves them unspecified). -/
def SortedDesc {α : Type} (f : α → ℚ) (l : List α) : Prop :=
  l.Pairwise (fun a b => f b ≤ f a)

/-- Recognizes the warning recorded for a failed listing fetch of page `p`. -/
def isListFailAt (p : Nat) : Warning → Bool
  | .listFail q _ => decide (q = p)
  | .detailFail _ _ => false

/-- A listing row that yields a post: title anchor present with nonempty
href (the two `continue` guards of the inner loop). -/
def validAnchor (tr : TrRow) : Bool :=
  match tr.anchor with
  | some (_, href) => decide (href ≠ "")
  | none => false

/-- Uppercase ASCII letter test (used to state "is lowercased"). -/
def isUpperAscii (c : Char) : Bool := 'A' ≤ c && c ≤ 'Z'

/-! ## Concrete sample data for the witnesses -/

/-- A one-post input table. -/
def postsW1 : List PostRow := [⟨['a', 'a'], [], "2024-01-01"⟩]

/-- The single statistics row produced from `postsW1` (its `freq` is written
as the unreduced cast quotient, which `ℚ`'s irreducible arithmetic keeps
intact). -/
def rowW1 : StatRow :=
  ⟨"2024-01-01", ['a', 'a'], 1, ((1 : Nat) : ℚ) / ((1 : Nat) : ℚ), 1, 1⟩

/-- A two-date input table whose first date's only post has no tokens. -/
def postsW3 : List PostRow :=
  [⟨['!'], [], "2024-01-01"⟩, ⟨['a', 'a'], [], "2024-01-02"⟩]

/-- The single statistics row produced from `postsW3`. -/
def rowW3 : StatRow :=
  ⟨"2024-01-02", ['a', 'a'], 1, ((1 : Nat) : ℚ) / ((1 : Nat) : ℚ), 1, 1⟩

/-- Three `tesla` rows on distinct dates with counts 2, 5, 1. -/
def rW8a : StatRow := ⟨"2024-02-01", "tesla".toList, 2, 0, 10, 1⟩

def rW8b : StatRow := ⟨"2024-03-01", "tesla".toList, 5, 0, 10, 1⟩

def rW8c : StatRow := ⟨"2024-04-01", "tesla".toList, 1, 0, 10, 1⟩

/-- A statistics table containing `tesla` on exactly three distinct dates. -/
def dfW8 : List StatRow := [rW8a, rW8b, rW8c]

/-! ## General lemmas -/

theorem charLe_iff {a b : Char} : a ≤ b ↔ a.toNat ≤ b.toNat := by
  rw [Char.le_def, UInt32.le_def, BitVec.le_def]
  rfl

theorem toLower_not_upper (c : Char) : isUpperAscii c.toLower = false := by
  simp only [isUpperAscii, Char.toLower]
  split
  · rename_i h
    have hv : (Char.ofNat (c.toNat + 32)).toNat = c.toNat + 32 := by
      rw [Char.ofNat, dif_pos]
      · rfl
      · unfold Nat.isValidChar
        omega
    simp only [Bool.and_eq_false_iff]
    right
    rw [Bool.eq_false_iff]
    intro hle
    rw [decide_eq_true_iff] at hle
    rw [charLe_iff, hv] at hle
    have : ('Z' : Char).toNat = 90 := rfl
    omega
  · rename_i h
    simp only [Bool.and_eq_false_iff]
    by_cases h1 : 'A' ≤ c
    · right
      rw [Bool.eq_false_iff]
      intro hle
      rw [decide_eq_true_iff] at hle
      rw [charLe_iff] at hle h1
      have ha : ('A' : Char).toNat = 65 := rfl
      have hz : ('Z' : Char).toNat = 90 := rfl
      omega
    · left
      rw [Bool.eq_false_iff]
      intro hle
      exact h1 (of_decide_eq_true hle)

theorem insertDescBy_perm {α : Type} (f : α → ℚ) (a : α) (l : List α) :
    (insertDescBy f a l).Perm (a :: l) := by
  induction l with
  | nil => exact List.Perm.refl _
  | cons b bs ih =>
    simp only [insertDescBy]
    split
    · exact List.Perm.refl _
    · exact (ih.cons b).trans (List.Perm.swap a b bs)

theorem sortDescBy_perm {α : Type} (f : α → ℚ) (l : List α) :
    (sortDescBy f l).Perm l := by
  induction l with
  | nil => exact List.Perm.refl _
  | cons a as ih =>
    exact (insertDescBy_perm f a (sortDescBy f as)).trans (ih.cons a)

theorem mem_sortDescBy {α : Type} {f : α → ℚ} {l : List α} {x : α} :
    x ∈ sortDescBy f l ↔ x ∈ l :=
  (sortDescBy_perm f l).mem_iff

theorem sortedDesc_insertDescBy {α : Type} {f : α → ℚ} {a : α} {l : List α}
    (h : SortedDesc f l) : SortedDesc f (insertDescBy f a l) := by
  induction l with
  | nil => exact List.pairwise_singleton _ _
  | cons b bs ih =>
    simp only [insertDescBy]
    rcases List.pairwise_cons.mp h with ⟨hb, hbs⟩
    split
    · rename_i hba
      refine List.pairwise_cons.mpr ⟨?_, h⟩
      intro x hx
      rcases List.mem_cons.mp hx with rfl | hx
      · exact hba
      · exact le_trans (hb x hx) hba
    · rename_i hba
      refine List.pairwise_cons.mpr ⟨?_, ih hbs⟩
      intro x hx
      rcases List.mem_cons.mp ((insertDescBy_perm f a bs).mem_iff.mp hx) with rfl | hx
      · exact le_of_not_le hba
      · exact hb x hx

theorem sortDescBy_sorted {α : Type} (f : α → ℚ) (l : List α) :
    SortedDesc f (sortDescBy f l) := by
  induction l with
  | nil => exact List.Pairwise.nil
  | cons a as ih => exact sortedDesc_insertDescBy ih

theorem truncateTopN_sublist {α : Type} (n : Nat) (l : List α) :
    (truncateTopN n l).Sublist l := by
  unfold truncateTopN
  split
  · exact List.take_sublist n l
  · exact List.Sublist.refl l

theorem sortedDesc_truncateTopN {α : Type} {f : α → ℚ} {l : List α} (n : Nat)
    (h : SortedDesc f l) : SortedDesc f (truncateTopN n l) :=
  List.Pairwise.sublist (truncateTopN_sublist n l) h

theorem sum_map_ite {α : Type} (p : α → Bool) (l : List α) :
    (l.map (fun a => if p a then 1 else 0)).sum = (l.filter p).length := by
  induction l with
  | nil => rfl
  | cons a as ih =>
    by_cases h : p a <;> simp [List.filter_cons, h, ih, Nat.add_comm]

theorem sum_map_single {l : List Nat} (hnd : l.Nodup) {p : Nat} (hp : p ∈ l)
    (f : Nat → Nat) (h0 : ∀ q ∈ l, q ≠ p → f q = 0) (h1 : f p = 1) :
    (l.map f).sum = 1 := by
  induction l with
  | nil => cases hp
  | cons a as ih =>
    rcases List.nodup_cons.mp hnd with ⟨hna, hnd'⟩
    rcases List.mem_cons.mp hp with rfl | hmem
    · have hz : (as.map f).sum = 0 := by
        apply List.sum_eq_zero
        intro x hx
        rcases List.mem_map.mp hx with ⟨q, hq, rfl⟩
        exact h0 q (List.mem_cons_of_mem _ hq) (fun h => hna (h ▸ hq))
      simp [h1, hz]
    · have ha : f a = 0 :=
        h0 a (List.mem_cons_self _ _) (fun h => hna (h ▸ hmem))
      have := ih hnd' hmem (fun q hq => h0 q (List.mem_cons_of_mem _ hq))
      simp [ha, this]

theorem flatten_filter_single {α β : Type} [DecidableEq β] (tag : α → β) (f : β → List α)
    (ds : List β) (hnd : ds.Nodup) {key : β} (hkey : key ∈ ds)
    (htag : ∀ d r, r ∈ f d → tag r = d) :
    ((ds.map f).flatten).filter (fun r => decide (tag r = key)) = f key := by
  induction ds with
  | nil => cases hkey
  | cons d ds ih =>
    rw [List.map_cons, List.flatten_cons, List.filter_append]
    rcases List.nodup_cons.mp hnd with ⟨hnd1, hnd2⟩
    rcases List.mem_cons.mp hkey with rfl | hmem
    · have h1 : (f key).filter (fun r => decide (tag r = key)) = f key :=
        List.filter_eq_self.mpr (fun a ha => by simp [htag key a ha])
      have h2 : ((ds.map f).flatten).filter (fun r => decide (tag r = key)) = [] := by
        apply List.filter_eq_nil_iff.mpr
        intro a ha
        rcases List.mem_flatten.mp ha with ⟨l, hl, hal⟩
        rcases List.mem_map.mp hl with ⟨d', hd', rfl⟩
        have hta := htag d' a hal
        have hne : d' ≠ key := fun h => hnd1 (h ▸ hd')
        simp [hta, hne]
      rw [h1, h2, List.append_nil]
    · have hne : d ≠ key := fun h => hnd1 (h ▸ hmem)
      have h1 : (f d).filter (fun r => decide (tag r = key)) = [] := by
        apply List.filter_eq_nil_iff.mpr
        intro a ha
        have hta := htag d a ha
        simp [hta, hne]
      rw [h1, List.nil_append]
      exact ih hnd2 hmem

theorem set_append_singleton {α : Type} (σ : List α) (a b : α) :
    (σ ++ [a]).set σ.length b = σ ++ [b] := by
  rw [List.set_append]
  simp

/-! ## Lemmas about the aggregator -/

theorem mem_dateBlock {posts : List PostRow} {sw : List (List Char)} {ml : Nat}
    {d : String} {r : StatRow} :
    r ∈ dateBlock posts sw ml d ↔
      dateTokens posts sw ml d ≠ [] ∧
      ∃ w ∈ (dateTokens posts sw ml d).dedup,
        r = { date := d, word := w,
              count := (dateTokens posts sw ml d).count w,
              freq := if 0 < dateTotalWords posts sw ml d then
                  ((dateTokens posts sw ml d).count w : ℚ) /
                    (dateTotalWords posts sw ml d : ℚ)
                else 0,
              total_words := dateTotalWords posts sw ml d,
              total_posts := (dateGrp posts d).length } := by
  unfold dateBlock
  by_cases h : (dateTokens posts sw ml d).isEmpty
  · rw [if_pos h]
    simp [List.isEmpty_iff.mp h]
  · rw [if_neg h]
    rw [List.isEmpty_iff] at h
    simp only [List.mem_map, h, ne_eq, not_false_eq_true, true_and]
    constructor
    · rintro ⟨w, hw, rfl⟩
      exact ⟨w, hw, rfl⟩
    · rintro ⟨w, hw, rfl⟩
      exact ⟨w, hw, rfl⟩

theorem dateBlock_date {posts : List PostRow} {sw : List (List Char)} {ml : Nat}
    {d : String} {r : StatRow} (h : r ∈ dateBlock posts sw ml d) : r.date = d := by
  rcases mem_dateBlock.mp h with ⟨-, w, -, rfl⟩
  rfl

theorem mem_build {posts : List PostRow} {sw : Option (List (List Char))} {ml : Nat}
    {r : StatRow} :
    r ∈ build_daily_word_stats posts sw ml ↔
      ∃ d ∈ (posts.map (fun p => p.date)).dedup,
        r ∈ dateBlock posts (resolveStopwords sw) ml d := by
  unfold build_daily_word_stats
  simp only [List.mem_flatten, List.mem_map]
  constructor
  · rintro ⟨l, ⟨d, hd, rfl⟩, hr⟩
    exact ⟨d, hd, hr⟩
  · rintro ⟨d, hd, hr⟩
    exact ⟨_, ⟨d, hd, rfl⟩, hr⟩

theorem dateTotalWords_eq_length {posts : List PostRow} {sw : List (List Char)}
    {ml : Nat} {d : String} :
    dateTotalWords posts sw ml d = (dateTokens posts sw ml d).length := by
  rw [dateTotalWords, dateTokens, List.length_flatten]

theorem count_beq_bridge (w : List Char) (l : List (List Char)) :
    l.count w = @List.count _ instBEqOfDecidableEq w l := by
  induction l with
  | nil => rfl
  | cons x xs ih =>
    simp only [List.count_cons, ih]
    congr 1
    by_cases h : x = w <;> simp [h]

theorem dateBlock_count_sum {posts : List PostRow} {sw : List (List Char)} {ml : Nat}
    {d : String} (h : dateTokens posts sw ml d ≠ []) :
    ((dateBlock posts sw ml d).map (fun r => r.count)).sum =
      dateTotalWords posts sw ml d := by
  unfold dateBlock
  rw [if_neg (by simpa [List.isEmpty_iff] using h)]
  rw [List.map_map]
  rw [dateTotalWords_eq_length]
  simp only [Function.comp_def]
  rw [List.map_congr_left (fun w _ => count_beq_bridge w (dateTokens posts sw ml d))]
  exact List.sum_map_count_dedup_eq_length (dateTokens posts sw ml d)

theorem build_filter_date {posts : List PostRow} {sw : Option (List (List Char))}
    {ml : Nat} {d : String} (hd : d ∈ (posts.map (fun p => p.date)).dedup) :
    (build_daily_word_stats posts sw ml).filter (fun r => decide (r.date = d)) =
      dateBlock posts (resolveStopwords sw) ml d := by
  unfold build_daily_word_stats
  exact flatten_filter_single (fun r : StatRow => r.date) _ _
    (List.nodup_dedup _) hd (fun d' r hr => dateBlock_date hr)

theorem dateGrp_ne_nil {posts : List PostRow} {sw : List (List Char)} {ml : Nat}
    {d : String} (h : dateTokens posts sw ml d ≠ []) : dateGrp posts d ≠ [] := by
  intro hg
  apply h
  rw [dateTokens, hg]
  rfl

/-! ## C1: per-date totals of the aggregated table -/

/-- C1: in every table produced by `build_daily_word_stats` and for every
date appearing in it, the `count` column of that date's rows sums exactly to
the `total_words` value those rows carry, and their `total_posts` value is
the number of input posts whose normalized date is that date. -/
theorem build_daily_word_stats_totals (posts : List PostRow)
    (stopwords : Option (List (List Char))) (min_len : Nat) (r : StatRow)
    (hr : r ∈ build_daily_word_stats posts stopwords min_len) :
    (((build_daily_word_stats posts stopwords min_len).filter
        (fun x => x.date = r.date)).map (fun x => x.count)).sum = r.total_words ∧
    r.total_posts = (posts.filter (fun p => p.date = r.date)).length := by
  rcases mem_build.mp hr with ⟨d, hd, hblock⟩
  rcases mem_dateBlock.mp hblock with ⟨hne, w, hw, hr_eq⟩
  have hdate : r.date = d := by rw [hr_eq]
  have hwords : r.total_words = dateTotalWords posts (resolveStopwords stopwords) min_len d := by
    rw [hr_eq]
  have hposts : r.total_posts = (dateGrp posts d).length := by rw [hr_eq]
  constructor
  · rw [hdate, hwords, build_filter_date hd, dateBlock_count_sum hne]
  · rw [hposts, hdate]
    rfl

/-- Witness for C1 on a concrete one-post table. -/
theorem build_daily_word_stats_totals_witness :
    (rowW1 ∈ build_daily_word_stats postsW1 (some [['z']]) 2) ∧
    ((((build_daily_word_stats postsW1 (some [['z']]) 2).filter
        (fun x => x.date = rowW1.date)).map (fun x => x.count)).sum = rowW1.total_words ∧
      rowW1.total_posts = (postsW1.filter (fun p => p.date = rowW1.date)).length) := by
  have hmem : rowW1 ∈ build_daily_word_stats postsW1 (some [['z']]) 2 :=
    mem_build.mpr ⟨"2024-01-01", by decide,
      mem_dateBlock.mpr ⟨by decide, ['a', 'a'], by decide, rfl⟩⟩
  exact ⟨hmem, build_daily_word_stats_totals postsW1 (some [['z']]) 2 rowW1 hmem⟩

/-! ## C5: the derived frequency column -/

/-- C5: every row of `build_daily_word_stats` has
`freq = count / total_words` (with the `0` fallback for a zero
`total_words`), `freq` lies in `[0, 1]`, and `freq = 0` iff
`total_words = 0` (on emitted rows both sides are in fact always false). -/
theorem freq_spec (posts : List PostRow) (stopwords : Option (List (List Char)))
    (min_len : Nat) (r : StatRow)
    (hr : r ∈ build_daily_word_stats posts stopwords min_len) :
    r.freq = (if 0 < r.total_words then (r.count : ℚ) / (r.total_words : ℚ) else 0) ∧
    0 ≤ r.freq ∧ r.freq ≤ 1 ∧ (r.freq = 0 ↔ r.total_words = 0) := by
  rcases mem_build.mp hr with ⟨d, hd, hblock⟩
  rcases mem_dateBlock.mp hblock with ⟨hne, w, hw, hr_eq⟩
  set toks := dateTokens posts (resolveStopwords stopwords) min_len d with htoks
  have hcount : r.count = toks.count w := by rw [hr_eq]
  have hwords : r.total_words = dateTotalWords posts (resolveStopwords stopwords) min_len d := by
    rw [hr_eq]
  have hfreq : r.freq =
      if 0 < dateTotalWords posts (resolveStopwords stopwords) min_len d then
        (toks.count w : ℚ) / (dateTotalWords posts (resolveStopwords stopwords) min_len d : ℚ)
      else 0 := by
    rw [hr_eq]
  have hc1 : 0 < toks.count w := List.count_pos_iff.mpr (List.mem_dedup.mp hw)
  have hcle : toks.count w ≤ toks.length := List.count_le_length w toks
  have hlen : dateTotalWords posts (resolveStopwords stopwords) min_len d = toks.length :=
    dateTotalWords_eq_length
  have hpos : 0 < dateTotalWords posts (resolveStopwords stopwords) min_len d := by
    rw [hlen]
    exact List.length_pos.mpr hne
  refine ⟨by rw [hfreq, hcount, hwords], ?_, ?_, ?_⟩
  · rw [hfreq, if_pos hpos]
    exact div_nonneg (Nat.cast_nonneg _) (Nat.cast_nonneg _)
  · rw [hfreq, if_pos hpos]
    rw [div_le_one (by exact_mod_cast hpos)]
    exact_mod_cast hlen ▸ hcle
  · constructor
    · intro h0
      rw [hfreq, if_pos hpos] at h0
      rcases div_eq_zero_iff.mp h0 with hnum | hden
      · exact absurd (by exact_mod_cast hnum) (by omega)
      · exact absurd (by exact_mod_cast hden) (by omega)
    · intro h0
      rw [hwords] at h0
      omega

/-- Witness for C5 on a concrete one-post table. -/
theorem freq_spec_witness :
    (rowW1 ∈ build_daily_word_stats postsW1 (some [['y']]) 2) ∧
    (rowW1.freq = (if 0 < rowW1.total_words then
        (rowW1.count : ℚ) / (rowW1.total_words : ℚ) else 0) ∧
      0 ≤ rowW1.freq ∧ rowW1.freq ≤ 1 ∧ (rowW1.freq = 0 ↔ rowW1.total_words = 0)) := by
  have hmem : rowW1 ∈ build_daily_word_stats postsW1 (some [['y']]) 2 :=
    mem_build.mpr ⟨"2024-01-01", by decide,
      mem_dateBlock.mpr ⟨by decide, ['a', 'a'], by decide, rfl⟩⟩
  exact ⟨hmem, freq_spec postsW1 (some [['y']]) 2 rowW1 hmem⟩

/-! ## C10: implicit edge cases of the aggregation -/

/-- C10: a date whose posts all tokenize to zero tokens is wholly absent
from the output of `build_daily_word_stats`, while every emitted row has
`count ≥ 1`, `count ≤ total_words` and `total_posts ≥ 1`; moreover
`total_posts` counts all posts of the row's date, including any whose token
list is empty. -/
theorem aggregation_edge_cases (posts : List PostRow)
    (stopwords : Option (List (List Char))) (min_len : Nat) :
    (∀ d : String,
        (∀ p ∈ posts, p.date = d →
          postTokens (resolveStopwords stopwords) min_len p = []) →
        ∀ r ∈ build_daily_word_stats posts stopwords min_len, r.date ≠ d) ∧
    (∀ r ∈ build_daily_word_stats posts stopwords min_len,
        1 ≤ r.count ∧ r.count ≤ r.total_words ∧ 1 ≤ r.total_posts ∧
        r.total_posts = (posts.filter (fun p => p.date = r.date)).length) := by
  constructor
  · intro d hall r hr hrd
    rcases mem_build.mp hr with ⟨d', hd', hblock⟩
    have : r.date = d' := dateBlock_date hblock
    have hdd : d' = d := by rw [← this, hrd]
    subst hdd
    rcases mem_dateBlock.mp hblock with ⟨hne, -⟩
    apply hne
    rw [dateTokens]
    apply List.flatten_eq_nil_iff.mpr
    intro l hl
    rcases List.mem_map.mp hl with ⟨p, hp, rfl⟩
    rcases List.mem_filter.mp hp with ⟨hpmem, hpd⟩
    exact hall p hpmem (of_decide_eq_true hpd)
  · intro r hr
    rcases mem_build.mp hr with ⟨d, hd, hblock⟩
    rcases mem_dateBlock.mp hblock with ⟨hne, w, hw, hr_eq⟩
    have hdate : r.date = d := by rw [hr_eq]
    have hcount : r.count = (dateTokens posts (resolveStopwords stopwords) min_len d).count w := by
      rw [hr_eq]
    have hwords : r.total_words = dateTotalWords posts (resolveStopwords stopwords) min_len d := by
      rw [hr_eq]
    have hposts : r.total_posts = (dateGrp posts d).length := by rw [hr_eq]
    have hc1 : 0 < (dateTokens posts (resolveStopwords stopwords) min_len d).count w :=
      List.count_pos_iff.mpr (List.mem_dedup.mp hw)
    have hcle := List.count_le_length w (dateTokens posts (resolveStopwords stopwords) min_len d)
    have hlen : dateTotalWords posts (resolveStopwords stopwords) min_len d =
        (dateTokens posts (resolveStopwords stopwords) min_len d).length :=
      dateTotalWords_eq_length
    have hgrp : dateGrp posts d ≠ [] := dateGrp_ne_nil hne
    refine ⟨by omega, by rw [hcount, hwords, hlen]; exact hcle, ?_, ?_⟩
    · rw [hposts]
      exact List.length_pos.mpr hgrp
    · rw [hposts, hdate]
      rfl

/-- Witness for C10: the date `2024-01-01`, whose only post has no tokens,
is absent from the output of `postsW3`; the emitted row of `2024-01-02`
satisfies the bounds. -/
theorem aggregation_edge_cases_witness :
    (∀ p ∈ postsW3, p.date = "2024-01-01" →
        postTokens (resolveStopwords none) 2 p = []) ∧
    (∀ r ∈ build_daily_word_stats postsW3 none 2, r.date ≠ "2024-01-01") ∧
    (rowW3 ∈ build_daily_word_stats postsW3 none 2) ∧
    (1 ≤ rowW3.count ∧ rowW3.count ≤ rowW3.total_words ∧ 1 ≤ rowW3.total_posts ∧
      rowW3.total_posts = (postsW3.filter (fun p => p.date = rowW3.date)).length) := by
  have hmem : rowW3 ∈ build_daily_word_stats postsW3 none 2 :=
    mem_build.mpr ⟨"2024-01-02", by decide,
      mem_dateBlock.mpr ⟨by decide, ['a', 'a'], by decide, rfl⟩⟩
  exact ⟨by decide,
    (aggregation_edge_cases postsW3 none 2).1 "2024-01-01" (by decide),
    hmem,
    (aggregation_edge_cases postsW3 none 2).2 rowW3 hmem⟩

/-! ## C3: tokenizer guarantees -/

/-- Helper: what a successful filterMap step of `tokenize_text` implies. -/
theorem tokenize_step {stopwords : List (List Char)} {min_len : Nat} {run tok : List Char}
    (hf : (let t := if run.all isAsciiAlpha then run.map Char.toLower else run
           if t.length < min_len then none
           else if t ∈ stopwords then none else some t) = some tok) :
    min_len ≤ tok.length ∧ tok ∉ stopwords ∧
      (tok = run.map Char.toLower ∨ (tok = run ∧ run.all isAsciiAlpha = false)) := by
  cases hall : run.all isAsciiAlpha
  · simp only [hall, Bool.false_eq_true, if_false] at hf
    split_ifs at hf with h1 h2
    obtain rfl := Option.some.inj hf
    exact ⟨by omega, h2, Or.inr ⟨rfl, rfl⟩⟩
  · simp only [hall, if_true] at hf
    split_ifs at hf with h1 h2
    obtain rfl := Option.some.inj hf
    exact ⟨by omega, h2, Or.inl rfl⟩

/-- C3 (corrected): `tokenize_text` is deterministic (it is a pure function
of its three inputs), never emits a token shorter than `min_len` nor one in
`stopwords`, and every output token consisting solely of ASCII *letters*
carries no uppercase ASCII letter.  (The claim's stronger clause — that
every all-ASCII token is lowercase — fails: a mixed letter/digit ASCII token
is left unlowercased, see the counterexample.) -/
theorem tokenize_text_spec (text : List Char) (stopwords : List (List Char))
    (min_len : Nat) :
    (∀ (text2 : List Char) (sw2 : List (List Char)) (ml2 : Nat),
        text = text2 → stopwords = sw2 → min_len = ml2 →
        tokenize_text text stopwords min_len = tokenize_text text2 sw2 ml2) ∧
    ∀ tok ∈ tokenize_text text stopwords min_len,
      min_len ≤ tok.length ∧ tok ∉ stopwords ∧
      (tok.all isAsciiAlpha = true → tok.any isUpperAscii = false) := by
  refine ⟨?_, ?_⟩
  · rintro _ _ _ rfl rfl rfl
    rfl
  · intro tok htok
    rcases List.mem_filterMap.mp htok with ⟨run, hrun, hf⟩
    rcases tokenize_step hf with ⟨hlen, hsw, hcase⟩
    refine ⟨hlen, hsw, ?_⟩
    intro hall2
    rcases hcase with rfl | ⟨rfl, hfalse⟩
    · rw [List.any_eq_false]
      intro c hc
      rcases List.mem_map.mp hc with ⟨c0, hc0, rfl⟩
      simp [toLower_not_upper c0]
    · rw [hall2] at hfalse
      cases hfalse

/-- C3 counterexample: on input `"AB1"` (with no stopwords and
`min_len = 2`) the tokenizer emits the token `AB1`, which consists of ASCII
characters but is not lowercase — the source lowercases only tokens that
fully match `[A-Za-z]+`, and the digit blocks the match. -/
theorem tokenize_text_ascii_counterexample :
    ∃ tok ∈ tokenize_text ['A', 'B', '1'] [] 2,
      tok.all (fun c => decide (c.toNat ≤ 127)) = true ∧
      tok.any isUpperAscii = true := by
  decide

/-- Witness for C3 at a concrete input: `"Apple ab"` with stopword `ab`. -/
theorem tokenize_text_spec_witness :
    (['a', 'p', 'p', 'l', 'e'] ∈
        tokenize_text ("Apple ab".toList) [['a', 'b']] 2) ∧
    (2 ≤ ([(('a' : Char)), 'p', 'p', 'l', 'e'] : List Char).length ∧
      (['a', 'p', 'p', 'l', 'e'] : List Char) ∉ [[(('a' : Char)), 'b']] ∧
      ((['a', 'p', 'p', 'l', 'e'] : List Char).all isAsciiAlpha = true →
        (['a', 'p', 'p', 'l', 'e'] : List Char).any isUpperAscii = false)) :=
  ⟨by decide,
   (tokenize_text_spec ("Apple ab".toList) [['a', 'b']] 2).2
     ['a', 'p', 'p', 'l', 'e'] (by decide)⟩

/-! ## C2: timestamp normalization policy -/

/-- C2 counterexample: the code has no bare `HH:MM` branch — `"14:30"`
parses to `NaT` (so the row is dropped), not to the reference-now date the
claim requires; likewise no `:SS` variant of the absolute formats exists, so
`"2024.05.30 14:30:05"` also yields `NaT` instead of `2024-05-30`. -/
theorem parse_ts_claim_counterexample :
    parse_ts "14:30" = none ∧ parse_ts "2024.05.30 14:30:05" = none := by
  decide

/-- C2 (corrected): `parse_ts` tries exactly the four formats
`YYYY.MM.DD HH:MM`, `YYYY-MM-DD HH:MM`, `YYYY.MM.DD`, `YYYY-MM-DD`, in that
order, returning the first successful parse; every other input — including
a bare `HH:MM` time — yields null, and null rows are excluded from the
crawler's output (hence from aggregation).  `"2024.05.30"` normalizes to
2024-05-30 and `"not-a-date"` to null, as the claim's examples state. -/
theorem parse_ts_policy :
    (∀ (x : String) (d : DT),
        strpDate '.' true (stripChars x.toList) = some d → parse_ts x = some d) ∧
    (∀ (x : String) (d : DT),
        strpDate '.' true (stripChars x.toList) = none →
        strpDate '-' true (stripChars x.toList) = some d → parse_ts x = some d) ∧
    (∀ (x : String) (d : DT),
        strpDate '.' true (stripChars x.toList) = none →
        strpDate '-' true (stripChars x.toList) = none →
        strpDate '.' false (stripChars x.toList) = some d → parse_ts x = some d) ∧
    (∀ (x : String) (d : DT),
        strpDate '.' true (stripChars x.toList) = none →
        strpDate '-' true (stripChars x.toList) = none →
        strpDate '.' false (stripChars x.toList) = none →
        strpDate '-' false (stripChars x.toList) = some d → parse_ts x = some d) ∧
    (∀ x : String,
        strpDate '.' true (stripChars x.toList) = none →
        strpDate '-' true (stripChars x.toList) = none →
        strpDate '.' false (stripChars x.toList) = none →
        strpDate '-' false (stripChars x.toList) = none → parse_ts x = none) ∧
    parse_ts "2024.05.30" = some ⟨2024, 5, 30, 0, 0⟩ ∧
    parse_ts "not-a-date" = none ∧
    parse_ts "14:30" = none ∧
    (∀ rows : List RawRow, (∀ r ∈ rows, parse_ts r.timestamp_raw = none) →
        applyTimestamps rows = []) := by
  refine ⟨?_, ?_, ?_, ?_, ?_, by decide, by decide, by decide, ?_⟩
  · intro x d h1
    simp only [String.toList] at h1
    simp [parse_ts, h1, Option.orElse]
  · intro x d h1 h2
    simp only [String.toList] at h1 h2
    simp [parse_ts, h1, h2, Option.orElse]
  · intro x d h1 h2 h3
    simp only [String.toList] at h1 h2 h3
    simp [parse_ts, h1, h2, h3, Option.orElse]
  · intro x d h1 h2 h3 h4
    simp only [String.toList] at h1 h2 h3 h4
    simp [parse_ts, h1, h2, h3, h4, Option.orElse]
  · intro x h1 h2 h3 h4
    simp only [String.toList] at h1 h2 h3 h4
    simp [parse_ts, h1, h2, h3, h4, Option.orElse]
  · intro rows hall
    apply List.filterMap_eq_nil_iff.mpr
    intro r hr
    rw [hall r hr]
    rfl

/-- Witness for C2: the first format succeeds on `"2024.05.30 14:30"` and
`parse_ts` returns its result. -/
theorem parse_ts_policy_witness :
    (strpDate '.' true (stripChars ("2024.05.30 14:30").toList) =
        some ⟨2024, 5, 30, 14, 30⟩) ∧
    parse_ts "2024.05.30 14:30" = some ⟨2024, 5, 30, 14, 30⟩ :=
  ⟨by decide, parse_ts_policy.1 "2024.05.30 14:30" ⟨2024, 5, 30, 14, 30⟩ (by decide)⟩

/-! ## C4: sort-key validation -/

/-- Helper: an empty in-range selection forces an empty grouped result. -/
theorem rangeGrouped_nil_of_sub_nil {df : List StatRow} {s e : String} {m : Nat}
    (h : rangeSub df s e = []) : rangeGrouped df s e m = [] := by
  unfold rangeGrouped
  rw [h]
  rfl

/-- Helper: the day selection after the `min_count` filter is drawn from the
exact-date selection. -/
theorem daySub_nil_of_dayFiltered {df : List StatRow} {t : String} {mc : Nat}
    (h : daySub df t = []) : dayFiltered df t mc = [] := by
  unfold dayFiltered
  rw [h]
  rfl

/-- C4 counterexample: on an empty table, both queries return an empty
result for the unrecognized sort key `"bogus"` instead of failing — the
`sub.empty` / `grouped.empty` early returns precede the `sort_by`
validation, so the error is *not* raised regardless of the data. -/
theorem sort_by_validation_counterexample :
    get_range_word_stats [] "2024-01-01" "2024-12-31" 1 50 "bogus" = .ok [] ∧
    get_day_word_stats [] "2024-01-01" 1 100 "bogus" = .ok [] := by
  constructor <;> rfl

/-- C4 (corrected): with an unrecognized sort key, each query raises the
invalid-argument error exactly when the data surviving its filters is
non-empty; when nothing survives (in particular on an empty table) it
returns an empty result without any error. -/
theorem sort_by_validation :
    (∀ (df : List StatRow) (s e : String) (m n : Nat) (k : String),
        k ≠ "sum_count" → k ≠ "avg_freq" → k ≠ "max_freq" →
        (rangeGrouped df s e m ≠ [] →
          get_range_word_stats df s e m n k = .error ("invalid sort_by: " ++ k)) ∧
        (rangeGrouped df s e m = [] →
          get_range_word_stats df s e m n k = .ok [])) ∧
    (∀ (df : List StatRow) (t : String) (mc n : Nat) (k : String),
        k ≠ "count" → k ≠ "freq" →
        (dayFiltered df t mc ≠ [] →
          get_day_word_stats df t mc n k = .error ("invalid sort_by: " ++ k)) ∧
        (dayFiltered df t mc = [] →
          get_day_word_stats df t mc n k = .ok [])) := by
  constructor
  · intro df s e m n k h1 h2 h3
    constructor
    · intro hne
      have hsub : rangeSub df s e ≠ [] := by
        intro h
        exact hne (rangeGrouped_nil_of_sub_nil h)
      unfold get_range_word_stats
      rw [if_neg (by simpa [List.isEmpty_iff] using hsub),
        if_neg (by simpa [List.isEmpty_iff] using hne),
        if_neg h1, if_neg h2, if_neg h3]
    · intro hnil
      unfold get_range_word_stats
      by_cases hsub : (rangeSub df s e).isEmpty
      · rw [if_pos hsub]
      · rw [if_neg hsub, if_pos (by simpa [List.isEmpty_iff] using hnil), hnil]
  · intro df t mc n k h1 h2
    constructor
    · intro hne
      have hsub : daySub df t ≠ [] := by
        intro h
        exact hne (daySub_nil_of_dayFiltered h)
      unfold get_day_word_stats
      rw [if_neg (by simpa [List.isEmpty_iff] using hsub),
        if_neg (by simpa [List.isEmpty_iff] using hne),
        if_neg h1, if_neg h2]
    · intro hnil
      unfold get_day_word_stats
      by_cases hsub : (daySub df t).isEmpty
      · rw [if_pos hsub]
      · rw [if_neg hsub, if_pos (by simpa [List.isEmpty_iff] using hnil), hnil]

/-- Witness for C4: with one qualifying row and sort key `"bogus"`, the
range query raises the invalid-argument error. -/
theorem sort_by_validation_witness :
    (("bogus" : String) ≠ "sum_count" ∧ ("bogus" : String) ≠ "avg_freq" ∧
      ("bogus" : String) ≠ "max_freq" ∧
      rangeGrouped [⟨"2024-06-01", ['a', 'a'], 1, 0, 1, 1⟩] "2024-01-01" "2024-12-31" 1 ≠ []) ∧
    get_range_word_stats [⟨"2024-06-01", ['a', 'a'], 1, 0, 1, 1⟩]
      "2024-01-01" "2024-12-31" 1 50 "bogus" = .error ("invalid sort_by: " ++ "bogus") :=
  ⟨⟨by decide, by decide, by decide, by decide⟩,
   ((sort_by_validation.1 [⟨"2024-06-01", ['a', 'a'], 1, 0, 1, 1⟩]
      "2024-01-01" "2024-12-31" 1 50 "bogus"
      (by decide) (by decide) (by decide)).1 (by decide))⟩

/-! ## C9: the queries never mutate the caller's table -/

/-- C9: both queries, run against the explicit store, leave the caller's
table (and in fact every pre-existing cell of the store) unchanged: the
`copy()` directs the only in-place write to a fresh cell. -/
theorem queries_pure (σ : Store) (dfRef : Nat)
    (s e : String) (m n : Nat) (k : String)
    (t : String) (mc n2 : Nat) (k2 : String)
    (h : dfRef < σ.length) :
    (rangeHeap σ dfRef s e m n k).fst.getD dfRef [] = σ.getD dfRef [] ∧
    (dayHeap σ dfRef t mc n2 k2).fst.getD dfRef [] = σ.getD dfRef [] := by
  constructor
  · show ((σ ++ [σ.getD dfRef []]).set σ.length _).getD dfRef [] = σ.getD dfRef []
    rw [set_append_singleton]
    exact List.getD_append σ _ [] dfRef h
  · show ((σ ++ [σ.getD dfRef []]).set σ.length _).getD dfRef [] = σ.getD dfRef []
    rw [set_append_singleton]
    exact List.getD_append σ _ [] dfRef h

/-- Witness for C9 on a one-table store. -/
theorem queries_pure_witness :
    ((0 : Nat) < ([[⟨"2024-06-01", ['a', 'a'], 1, 0, 1, 1⟩]] : Store).length) ∧
    ((rangeHeap [[⟨"2024-06-01", ['a', 'a'], 1, 0, 1, 1⟩]] 0
        "2024-01-01" "2024-12-31" 1 50 "sum_count").fst.getD 0 [] =
      ([[⟨"2024-06-01", ['a', 'a'], 1, 0, 1, 1⟩]] : Store).getD 0 [] ∧
     (dayHeap [[⟨"2024-06-01", ['a', 'a'], 1, 0, 1, 1⟩]] 0
        "2024-06-01" 1 50 "count").fst.getD 0 [] =
      ([[⟨"2024-06-01", ['a', 'a'], 1, 0, 1, 1⟩]] : Store).getD 0 []) :=
  ⟨by decide,
   queries_pure [[⟨"2024-06-01", ['a', 'a'], 1, 0, 1, 1⟩]] 0
     "2024-01-01" "2024-12-31" 1 50 "sum_count" "2024-06-01" 1 50 "count" (by decide)⟩

/-! ## C6: a failed listing fetch is page-local -/

/-- Helper: `crawlPage` only looks at its own page's listing outcome and the
detail oracle. -/
theorem crawlPage_congr {site site' : Site} (q : Nat)
    (hl : site.listing q = site'.listing q) (hd : site.detail = site'.detail) :
    crawlPage site q = crawlPage site' q := by
  unfold crawlPage
  rw [hl, hd]

/-- Helper: one row's processing never records a listing-failure warning. -/
theorem processTr_snd_no_listFail (detail : String → Except String (Option String))
    (page : Nat) (tr : TrRow) (p : Nat) :
    (processTr detail page tr).snd.filter (isListFailAt p) = [] := by
  unfold processTr
  rcases tr.anchor with - | ⟨title, href⟩
  · rfl
  · dsimp only
    split
    · rfl
    · rcases detail (normHref href) with e | b
      · simp [isListFailAt]
      · rcases b with - | body <;> rfl

/-- Helper: a successfully fetched page records no listing-failure warning,
and a page other than `p` never records one for `p`. -/
theorem crawlPage_snd_filter_ne (site : Site) (q p : Nat) (hqp : q ≠ p) :
    (crawlPage site q).snd.filter (isListFailAt p) = [] := by
  unfold crawlPage
  rcases hl : site.listing q with e | trs
  · simp [isListFailAt, hqp]
  · dsimp only
    rw [List.filter_flatten]
    apply List.flatten_eq_nil_iff.mpr
    intro l hl'
    rcases List.mem_map.mp hl' with ⟨l', hl'', rfl⟩
    rcases List.mem_map.mp hl'' with ⟨w, hw, rfl⟩
    rcases List.mem_map.mp hw with ⟨tr, htr, rfl⟩
    exact processTr_snd_no_listFail site.detail q tr p

/-- C6: if the listing fetch of one page `p` inside the crawled range fails,
`crawl_dc_minor` still returns exactly the posts of all the other pages (the
run is not aborted, and page `p` contributes none), and the warning channel
records exactly one listing-failure entry for page `p`. -/
theorem page_failure_resilience (site : Site) (start_page end_page p : Nat)
    (e : String) (hsp : start_page ≤ p) (hep : p ≤ end_page)
    (hfail : site.listing p = .error e) :
    (crawl_dc_minor site start_page end_page).fst =
      (crawl_dc_minor
        ⟨fun q => if q = p then Except.ok [] else site.listing q, site.detail⟩
        start_page end_page).fst ∧
    ((crawl_dc_minor site start_page end_page).snd.filter (isListFailAt p)).length = 1 := by
  have hp_mem : p ∈ List.range' start_page (end_page + 1 - start_page) :=
    List.mem_range'_1.mpr ⟨hsp, by omega⟩
  constructor
  · unfold crawl_dc_minor
    dsimp only
    congr 1
    apply congrArg
    apply List.map_congr_left
    intro q hq
    by_cases hqp : q = p
    · subst hqp
      have h1 : (crawlPage site q).fst = [] := by
        unfold crawlPage
        rw [hfail]
      have h2 : (crawlPage
          ⟨fun q' => if q' = q then Except.ok [] else site.listing q', site.detail⟩
          q).fst = [] := by
        unfold crawlPage
        simp
      rw [h1, h2]
    · exact congrArg Prod.fst
        (crawlPage_congr q (by simp [hqp]) rfl)
  · unfold crawl_dc_minor
    dsimp only
    rw [List.filter_flatten, List.map_map, List.length_flatten, List.map_map]
    apply sum_map_single (List.nodup_range' _ _) hp_mem
    · intro q hq hqp
      simp only [Function.comp_apply]
      rw [crawlPage_snd_filter_ne site q p hqp]
      rfl
    · simp only [Function.comp_apply]
      unfold crawlPage
      rw [hfail]
      simp [isListFailAt]

/-- The concrete site of the C6 witness: page 2's listing fetch raises,
pages 1 and 3 each carry one post stub, details are absent. -/
def siteW : Site where
  listing q :=
    if q = 2 then .error "boom"
    else .ok [⟨some ("post", "/board/view/?no=1"), some (some "2024-06-01 10:00:00", "10:00")⟩]
  detail _ := .ok none

/-- Witness for C6 on `siteW` over pages 1–3 with page 2 failing. -/
theorem page_failure_resilience_witness :
    ((1 : Nat) ≤ 2 ∧ (2 : Nat) ≤ 3 ∧ siteW.listing 2 = .error "boom") ∧
    ((crawl_dc_minor siteW 1 3).fst =
      (crawl_dc_minor
        ⟨fun q => if q = 2 then Except.ok [] else siteW.listing q, siteW.detail⟩ 1 3).fst ∧
     ((crawl_dc_minor siteW 1 3).snd.filter (isListFailAt 2)).length = 1) :=
  ⟨⟨by decide, by decide, rfl⟩,
   page_failure_resilience siteW 1 3 2 "boom" (by decide) (by decide) rfl⟩

/-! ## C7: a failed detail fetch never drops a post -/

/-- C7: for a successfully listed page, the number of emitted rows depends
only on the listing (one row per resolvable title anchor, whatever the
detail outcomes), and any stub whose detail fetch raises or whose content
container is absent is still emitted — with an empty body and its title,
raw date and url intact. -/
theorem detail_failure_resilience (site : Site) (p : Nat) (trs : List TrRow)
    (hok : site.listing p = .ok trs) :
    ((crawlPage site p).fst.length = (trs.filter validAnchor).length) ∧
    (∀ tr ∈ trs, ∀ title href, tr.anchor = some (title, href) → href ≠ "" →
      (∀ body, site.detail (normHref href) ≠ .ok (some body)) →
      (⟨rawDateOf tr, title, "", normHref href, p⟩ : RawRow) ∈ (crawlPage site p).fst) := by
  have hfst : (crawlPage site p).fst =
      ((trs.map (processTr site.detail p)).map Prod.fst).flatten := by
    unfold crawlPage
    rw [hok]
  constructor
  · rw [hfst, List.length_flatten, List.map_map, List.map_map]
    rw [← sum_map_ite validAnchor trs]
    apply congrArg
    apply List.map_congr_left
    intro tr htr
    simp only [Function.comp_apply]
    unfold processTr validAnchor
    rcases tr.anchor with - | ⟨title, href⟩
    · rfl
    · dsimp only
      by_cases h : href = ""
      · simp [h]
      · rcases site.detail (normHref href) with err | b
        · simp [h]
        · rcases b with - | body <;> simp [h]
  · intro tr htr title href hanchor hhref hdet
    rw [hfst]
    apply List.mem_flatten.mpr
    refine ⟨(processTr site.detail p tr).fst, ?_, ?_⟩
    · exact List.mem_map.mpr ⟨processTr site.detail p tr,
        List.mem_map.mpr ⟨tr, htr, rfl⟩, rfl⟩
    · unfold processTr
      rw [hanchor]
      dsimp only
      rw [if_neg hhref]
      rcases hd : site.detail (normHref href) with err | b
      · exact List.mem_singleton.mpr rfl
      · rcases b with - | body
        · exact List.mem_singleton.mpr rfl
        · exact absurd hd (hdet body)

/-- Witness for C7: a page with two stubs, one of which has a failing detail
fetch, still emits both rows and the failing one keeps its metadata. -/
def siteW7 : Site where
  listing q :=
    if q = 1 then
      .ok [⟨some ("good", "/view?no=1"), some (none, "06.01")⟩,
           ⟨some ("bad", "/view?no=2"), none⟩]
    else .ok []
  detail url := if url = "https://gall.dcinside.com/view?no=2" then .error "timeout" else .ok (some "body")

/-- Witness for C7 on `siteW7`. -/
theorem detail_failure_resilience_witness :
    (siteW7.listing 1 = .ok [⟨some ("good", "/view?no=1"), some (none, "06.01")⟩,
        ⟨some ("bad", "/view?no=2"), none⟩] ∧
      (⟨some (("bad" : String), ("/view?no=2" : String)), none⟩ : TrRow).anchor =
        some ("bad", "/view?no=2") ∧
      ("/view?no=2" : String) ≠ "" ∧
      (∀ body, siteW7.detail (normHref "/view?no=2") ≠ .ok (some body))) ∧
    ((crawlPage siteW7 1).fst.length =
      ([⟨some (("good" : String), ("/view?no=1" : String)), some (none, "06.01")⟩,
        (⟨some ("bad", "/view?no=2"), none⟩ : TrRow)].filter validAnchor).length ∧
     (⟨rawDateOf ⟨some ("bad", "/view?no=2"), none⟩, "bad", "",
        normHref "/view?no=2", 1⟩ : RawRow) ∈ (crawlPage siteW7 1).fst) := by
  have h := detail_failure_resilience siteW7 1
    [⟨some ("good", "/view?no=1"), some (none, "06.01")⟩,
     ⟨some ("bad", "/view?no=2"), none⟩] rfl
  have hdet : ∀ body : String,
      siteW7.detail (normHref "/view?no=2") ≠ Except.ok (some body) := by
    intro body hbad
    rw [show siteW7.detail (normHref "/view?no=2") = Except.error "timeout" from rfl] at hbad
    cases hbad
  exact ⟨⟨rfl, rfl, by decide, hdet⟩,
    h.1, h.2 ⟨some ("bad", "/view?no=2"), none⟩ (by decide) "bad" "/view?no=2"
      rfl (by decide) hdet⟩

/-! ## C8: the range query -/

/-- Helper: membership in the grouped result forces the `min_days` bound. -/
theorem mem_rangeGrouped_days {df : List StatRow} {s e : String} {m : Nat}
    {g : RangeRow} (h : g ∈ rangeGrouped df s e m) : m ≤ g.days_appeared := by
  unfold rangeGrouped at h
  exact of_decide_eq_true (List.mem_filter.mp h).2

/-- Helper: the four shapes a successful range query can take. -/
theorem get_range_cases {df : List StatRow} {s e : String} {m n : Nat} {k : String}
    {out : List RangeRow}
    (h : get_range_word_stats df s e m n k = Except.ok out) :
    (out = [] ∧ rangeGrouped df s e m = []) ∨
    (k = "sum_count" ∧
      out = truncateTopN n (sortDescBy (fun g => (g.sum_count : ℚ)) (rangeGrouped df s e m))) ∨
    (k = "avg_freq" ∧
      out = truncateTopN n (sortDescBy (fun g => g.avg_freq) (rangeGrouped df s e m))) ∨
    (k = "max_freq" ∧
      out = truncateTopN n (sortDescBy (fun g => g.max_freq) (rangeGrouped df s e m))) := by
  unfold get_range_word_stats at h
  dsimp only at h
  split_ifs at h with h1 h2 h3 h4 h5
  · exact Or.inl ⟨(Except.ok.inj h).symm,
      rangeGrouped_nil_of_sub_nil (List.isEmpty_iff.mp h1)⟩
  · have hg := List.isEmpty_iff.mp h2
    exact Or.inl ⟨(Except.ok.inj h).symm.trans hg, hg⟩
  · exact Or.inr (Or.inl ⟨h3, (Except.ok.inj h).symm⟩)
  · exact Or.inr (Or.inr (Or.inl ⟨h4, (Except.ok.inj h).symm⟩))
  · exact Or.inr (Or.inr (Or.inr ⟨h5, (Except.ok.inj h).symm⟩))

/-- C8: (example) on any table whose in-range `tesla` rows are exactly three
rows on pairwise-distinct dates with counts 2, 5 and 1, the range query with
`min_days = 2` (and unbounded `top_n`) succeeds and returns a `tesla` row
with `sum_count = 8` and `days_appeared = 3`; (in general) every row of a
successful range query comes from the word-grouped, `min_days`-filtered
aggregation of the in-range rows, the result respects the `top_n` bound
(and is the whole aggregation, up to order, when `top_n = 0`) and is sorted
descending by the requested sort key. -/
theorem range_query_spec :
    (∀ (df : List StatRow) (s e : String) (r1 r2 r3 : StatRow),
        (rangeSub df s e).filter (fun r => r.word = "tesla".toList) = [r1, r2, r3] →
        r1.count = 2 → r2.count = 5 → r3.count = 1 →
        r1.date ≠ r2.date → r1.date ≠ r3.date → r2.date ≠ r3.date →
        ∃ out, get_range_word_stats df s e 2 0 "sum_count" = Except.ok out ∧
          ∃ g ∈ out, g.word = "tesla".toList ∧ g.sum_count = 8 ∧ g.days_appeared = 3) ∧
    (∀ (df : List StatRow) (s e : String) (m n : Nat) (k : String)
        (out : List RangeRow),
        get_range_word_stats df s e m n k = Except.ok out →
        (∀ g ∈ out, g ∈ rangeGrouped df s e m ∧ m ≤ g.days_appeared) ∧
        (0 < n → out.length ≤ n) ∧
        (n = 0 → out.Perm (rangeGrouped df s e m)) ∧
        (k = "sum_count" → SortedDesc (fun g => (g.sum_count : ℚ)) out) ∧
        (k = "avg_freq" → SortedDesc (fun g => g.avg_freq) out) ∧
        (k = "max_freq" → SortedDesc (fun g => g.max_freq) out)) := by
  constructor
  · intro df s e r1 r2 r3 hts hc1 hc2 hc3 h12 h13 h23
    have hr1 : r1 ∈ (rangeSub df s e).filter (fun r => r.word = "tesla".toList) := by
      rw [hts]
      exact List.mem_cons_self _ _
    have hr1sub : r1 ∈ rangeSub df s e := (List.mem_filter.mp hr1).1
    have hr1w : r1.word = "tesla".toList :=
      of_decide_eq_true (List.mem_filter.mp hr1).2
    have htmem : "tesla".toList ∈ ((rangeSub df s e).map (fun r => r.word)).dedup :=
      List.mem_dedup.mpr (List.mem_map.mpr ⟨r1, hr1sub, hr1w⟩)
    have hgsum : (mkRangeRow (rangeSub df s e) ("tesla".toList)).sum_count = 8 := by
      unfold mkRangeRow
      dsimp only
      rw [hts]
      simp [hc1, hc2, hc3]
    have hgdays : (mkRangeRow (rangeSub df s e) ("tesla".toList)).days_appeared = 3 := by
      unfold mkRangeRow
      dsimp only
      rw [hts]
      have hnd : ([r1.date, r2.date, r3.date] : List String).Nodup := by
        simp [List.nodup_cons, h12, h13, h23]
      rw [show ([r1, r2, r3].map (fun r => r.date)) = [r1.date, r2.date, r3.date] from rfl]
      rw [List.dedup_eq_self.mpr hnd]
      rfl
    have hgmem : mkRangeRow (rangeSub df s e) ("tesla".toList) ∈ rangeGrouped df s e 2 := by
      unfold rangeGrouped
      apply List.mem_filter.mpr
      refine ⟨List.mem_map.mpr ⟨"tesla".toList, htmem, rfl⟩, ?_⟩
      rw [decide_eq_true_iff, hgdays]
      omega
    have hgrne : rangeGrouped df s e 2 ≠ [] := by
      intro hnil
      rw [hnil] at hgmem
      cases hgmem
    have hsubne : rangeSub df s e ≠ [] := by
      intro hnil
      exact hgrne (rangeGrouped_nil_of_sub_nil hnil)
    refine ⟨truncateTopN 0
        (sortDescBy (fun g => (g.sum_count : ℚ)) (rangeGrouped df s e 2)), ?_, ?_⟩
    · unfold get_range_word_stats
      rw [if_neg (by simpa [List.isEmpty_iff] using hsubne),
        if_neg (by simpa [List.isEmpty_iff] using hgrne), if_pos rfl]
    · refine ⟨mkRangeRow (rangeSub df s e) ("tesla".toList), ?_, rfl, hgsum, hgdays⟩
      have hmem1 : mkRangeRow (rangeSub df s e) ("tesla".toList) ∈
          sortDescBy (fun g => (g.sum_count : ℚ)) (rangeGrouped df s e 2) :=
        mem_sortDescBy.mpr hgmem
      unfold truncateTopN
      rw [if_neg (by omega)]
      exact hmem1
  · intro df s e m n k out h
    have hcases := get_range_cases h
    constructor
    · intro g hg
      rcases hcases with ⟨rfl, -⟩ | ⟨-, rfl⟩ | ⟨-, rfl⟩ | ⟨-, rfl⟩
      · cases hg
      all_goals
        have hg' := mem_sortDescBy.mp ((truncateTopN_sublist _ _).mem hg)
        exact ⟨hg', mem_rangeGrouped_days hg'⟩
    · constructor
      · intro hn
        rcases hcases with ⟨rfl, -⟩ | ⟨-, rfl⟩ | ⟨-, rfl⟩ | ⟨-, rfl⟩
        · simp
        all_goals
          unfold truncateTopN
          rw [if_pos hn]
          exact List.length_take_le n _
      · constructor
        · intro hn
          subst hn
          rcases hcases with ⟨rfl, hnil⟩ | ⟨-, rfl⟩ | ⟨-, rfl⟩ | ⟨-, rfl⟩
          · rw [hnil]
          all_goals
            unfold truncateTopN
            rw [if_neg (by omega)]
            exact sortDescBy_perm _ _
        · refine ⟨?_, ?_, ?_⟩ <;> intro hk
          · rcases hcases with ⟨rfl, -⟩ | ⟨-, rfl⟩ | ⟨hk', -⟩ | ⟨hk', -⟩
            · exact List.Pairwise.nil
            · exact sortedDesc_truncateTopN n (sortDescBy_sorted _ _)
            · exact absurd (hk ▸ hk') (by decide)
            · exact absurd (hk ▸ hk') (by decide)
          · rcases hcases with ⟨rfl, -⟩ | ⟨hk', -⟩ | ⟨-, rfl⟩ | ⟨hk', -⟩
            · exact List.Pairwise.nil
            · exact absurd (hk ▸ hk') (by decide)
            · exact sortedDesc_truncateTopN n (sortDescBy_sorted _ _)
            · exact absurd (hk ▸ hk') (by decide)
          · rcases hcases with ⟨rfl, -⟩ | ⟨hk', -⟩ | ⟨hk', -⟩ | ⟨-, rfl⟩
            · exact List.Pairwise.nil
            · exact absurd (hk ▸ hk') (by decide)
            · exact absurd (hk ▸ hk') (by decide)
            · exact sortedDesc_truncateTopN n (sortDescBy_sorted _ _)

/-- Witness for C8 on the concrete three-row `tesla` table `dfW8`. -/
theorem range_query_spec_witness :
    ((rangeSub dfW8 "2024-01-01" "2024-12-31").filter
        (fun r => r.word = "tesla".toList) = [rW8a, rW8b, rW8c] ∧
      rW8a.count = 2 ∧ rW8b.count = 5 ∧ rW8c.count = 1 ∧
      rW8a.date ≠ rW8b.date ∧ rW8a.date ≠ rW8c.date ∧ rW8b.date ≠ rW8c.date) ∧
    (∃ out, get_range_word_stats dfW8 "2024-01-01" "2024-12-31" 2 0 "sum_count" =
        Except.ok out ∧
      ∃ g ∈ out, g.word = "tesla".toList ∧ g.sum_count = 8 ∧ g.days_appeared = 3) :=
  ⟨⟨by decide, by decide, by decide, by decide, by decide, by decide, by decide⟩,
   range_query_spec.1 dfW8 "2024-01-01" "2024-12-31" rW8a rW8b rW8c
     (by decide) (by decide) (by decide) (by decide)
     (by decide) (by decide) (by decide)⟩

end App
